import Mathlib

/-!
Verification of the streaming radar-pose packet decoder in
`src/deck/drivers/src/radardeck.c`.

The decoder reconstructs 18-byte frames (sync `0xA5`, four little-endian
float32 payload values, trailing CRC-8/MAXIM byte) from a byte stream,
validates the checksum, and forwards validated measurements.

Modelling choices:
* Bytes are `Nat` values (the UART delivers `uint8_t`, so all real inputs
  are `< 256`; the CRC arithmetic stays below 256 by construction).
* The four float32 fields are modelled by their 32-bit little-endian bit
  patterns (`Nat < 2^32`).  The C code performs no floating-point
  arithmetic: `float *f = (float *)&buf[1]` merely reinterprets the payload
  bytes, and `lastX = f[0]` copies them, so bit-for-bit equality of floats
  is exactly equality of bit patterns.
* The state of `radarTask`'s loop (local `buf`, `idx` and the module
  statics `lastX`, `lastY`, `lastZ`, `poseValid`) becomes an explicit
  record, and one iteration of the blocking read loop becomes the step
  function `feed : RadarState → Nat → RadarState × Option Measurement`.
  The initial stack buffer is modelled as zeros; its contents are never
  read before all 18 positions have been overwritten.
-/

set_option maxRecDepth 8192

/-- `PKT_SYNC` from radardeck.c line 27. -/
def PKT_SYNC : Nat := 0xA5

/-- `PKT_LEN` from radardeck.c line 28: 1 sync + 16 payload + 1 crc. -/
def PKT_LEN : Nat := 18

/-- One inner-loop iteration of `crc8_maxim` (radardeck.c lines 40-43):
`mix = (c ^ b) & 1; c >>= 1; if (mix) c ^= 0x8C;` returning the new `c`. -/
def crc8_bit (c b : Nat) : Nat :=
  let mix := (c ^^^ b) &&& 1
  let c1 := c >>> 1
  if mix ≠ 0 then c1 ^^^ 0x8C else c1

/-- The 8-iteration inner loop of `crc8_maxim`, shifting `b` right once per
bit step (radardeck.c lines 39-44). -/
def crc8_byteAux : Nat → Nat → Nat → Nat
  | 0, c, _ => c
  | j + 1, c, b => crc8_byteAux j (crc8_bit c b) (b >>> 1)

/-- Processing one message byte: 8 bit steps (radardeck.c lines 38-44). -/
def crc8_byte (c b : Nat) : Nat := crc8_byteAux 8 c b

/-- `crc8_maxim` (radardeck.c lines 34-47): fold `crc8_byte` over the data
with initial value 0. -/
def crc8_maxim (d : List Nat) : Nat := d.foldl crc8_byte 0

/-- The measurement source tag; the driver always uses
`MeasurementSourceLocationService` (radardeck.c line 78). -/
inductive MeasurementSource where
  | locationService
deriving DecidableEq, Repr

/-- The `positionMeasurement_t` built at radardeck.c lines 75-79, with the
float fields represented by their 32-bit patterns. -/
structure Measurement where
  x : Nat
  y : Nat
  z : Nat
  stdDev : Nat
  source : MeasurementSource
deriving DecidableEq, Repr

/-- The frame-assembly state of `radarTask`: the local `buf` (18 bytes) and
`idx` (radardeck.c lines 61-62). -/
structure Assembler where
  buf : List Nat
  idx : Nat
deriving DecidableEq, Repr

/-- Full decoder state: assembler plus the module statics `lastX`, `lastY`,
`lastZ`, `poseValid` (radardeck.c lines 30-31), floats as bit patterns. -/
structure RadarState where
  asm : Assembler
  lastX : Nat
  lastY : Nat
  lastZ : Nat
  poseValid : Nat
deriving DecidableEq, Repr

/-- State at task start: `idx = 0`, statics zero-initialised; the
uninitialised stack buffer is modelled as zeros (never read before being
fully overwritten). -/
def initState : RadarState :=
  { asm := { buf := List.replicate 18 0, idx := 0 }
    lastX := 0, lastY := 0, lastZ := 0, poseValid := 0 }

/-- Little-endian reconstruction of a 32-bit word from four bytes, as done
by reading `float f[i]` out of `&buf[1]` on the little-endian target. -/
def le32 (b0 b1 b2 b3 : Nat) : Nat :=
  b0 + 256 * b1 + 65536 * b2 + 16777216 * b3

/-- Checksum validation and payload decoding (radardeck.c lines 73-80):
compare `crc8_maxim(&buf[1], 16)` with `buf[17]`; on match decode the four
little-endian float32 fields from frame bytes 1-16. -/
def validate_and_decode (frame : List Nat) : Option Measurement :=
  if crc8_maxim ((frame.drop 1).take 16) = frame.getD 17 0 then
    some
      { x := le32 (frame.getD 1 0) (frame.getD 2 0) (frame.getD 3 0) (frame.getD 4 0)
        y := le32 (frame.getD 5 0) (frame.getD 6 0) (frame.getD 7 0) (frame.getD 8 0)
        z := le32 (frame.getD 9 0) (frame.getD 10 0) (frame.getD 11 0) (frame.getD 12 0)
        stdDev := le32 (frame.getD 13 0) (frame.getD 14 0) (frame.getD 15 0) (frame.getD 16 0)
        source := MeasurementSource.locationService }
  else
    none

/-- `buf[idx++] = byte` (radardeck.c lines 69 and 71). -/
def store (a : Assembler) (b : Nat) : Assembler :=
  { buf := a.buf.set a.idx b, idx := a.idx + 1 }

/-- The framing state machine for one received byte (radardeck.c lines
68-72 and 84): at `idx = 0` only the sync byte is accepted; otherwise the
byte is stored and the cursor incremented; on reaching `PKT_LEN` the
completed candidate frame is handed out and the cursor reset to 0. -/
def asmFeed (a : Assembler) (b : Nat) : Assembler × Option (List Nat) :=
  if a.idx = 0 then
    if b = PKT_SYNC then (store a b, none) else (a, none)
  else
    let a1 := store a b
    if a1.idx = PKT_LEN then ({ a1 with idx := 0 }, some a1.buf) else (a1, none)

/-- One full iteration of the `radarTask` loop body for one byte
(radardeck.c lines 64-87): assemble, and on a complete frame validate; on
success emit the measurement and update `lastX/lastY/lastZ/poseValid`. -/
def feed (s : RadarState) (b : Nat) : RadarState × Option Measurement :=
  match asmFeed s.asm b with
  | (a, none) => ({ s with asm := a }, none)
  | (a, some frame) =>
    match validate_and_decode frame with
    | none => ({ s with asm := a }, none)
    | some m =>
      ({ asm := a, lastX := m.x, lastY := m.y, lastZ := m.z, poseValid := 1 }, some m)

/-- Feed a whole byte sequence, collecting the emitted measurements in
order. -/
def feedAll (s : RadarState) : List Nat → RadarState × List Measurement
  | [] => (s, [])
  | b :: bs =>
    let r := feed s b
    let rest := feedAll r.1 bs
    (rest.1, r.2.toList ++ rest.2)

/-- The four little-endian bytes of a 32-bit word. -/
def le32bytes (v : Nat) : List Nat :=
  [v % 256, v / 256 % 256, v / 65536 % 256, v / 16777216 % 256]

/-- The 16 payload bytes of the wire format for a quadruple of 32-bit
float patterns. -/
def encodePayload (x y z sd : Nat) : List Nat :=
  le32bytes x ++ le32bytes y ++ le32bytes z ++ le32bytes sd

/-- The full 18-byte wire frame for a quadruple: sync, payload, CRC-8. -/
def encode (x y z sd : Nat) : List Nat :=
  PKT_SYNC :: encodePayload x y z sd ++ [crc8_maxim (encodePayload x y z sd)]

/-! ## Bitwise helper lemmas -/

/-- Xor distributes over right shift. -/
theorem shiftRight_xor (x y n : Nat) : (x ^^^ y) >>> n = (x >>> n) ^^^ (y >>> n) := by
  apply Nat.eq_of_testBit_eq
  intro i
  simp [Nat.testBit_shiftRight, Nat.testBit_xor]

/-- Rearranging a four-way xor. -/
theorem xor_mix (a b c d : Nat) : (a ^^^ b) ^^^ (c ^^^ d) = (a ^^^ c) ^^^ (b ^^^ d) := by
  apply Nat.eq_of_testBit_eq
  intro i
  simp only [Nat.testBit_xor]
  cases a.testBit i <;> cases b.testBit i <;> cases c.testBit i <;> cases d.testBit i <;> rfl

/-- The low bit of a xor is the xor of the low bits. -/
theorem and_one_xor (x y : Nat) : (x ^^^ y) &&& 1 = (x &&& 1) ^^^ (y &&& 1) := by
  simp only [Nat.and_one_is_mod, Nat.xor_mod_two_eq]
  rw [Nat.add_mod]
  rcases Nat.mod_two_eq_zero_or_one x with hx | hx <;>
    rcases Nat.mod_two_eq_zero_or_one y with hy | hy <;> rw [hx, hy] <;> rfl

/-! ## GF(2)-linearity of the CRC-8 computation -/

/-- One CRC bit step is linear over xor (the CRC uses initial value 0 and
no final xor, so it is a linear map on the message bits). -/
theorem crc8_bit_linear (c1 b1 c2 b2 : Nat) :
    crc8_bit (c1 ^^^ c2) (b1 ^^^ b2) = crc8_bit c1 b1 ^^^ crc8_bit c2 b2 := by
  have hmix : ((c1 ^^^ c2) ^^^ (b1 ^^^ b2)) &&& 1
      = ((c1 ^^^ b1) &&& 1) ^^^ ((c2 ^^^ b2) &&& 1) := by
    rw [xor_mix, and_one_xor]
  have h1 : (c1 ^^^ b1) &&& 1 = 0 ∨ (c1 ^^^ b1) &&& 1 = 1 := by
    rw [Nat.and_one_is_mod]; exact Nat.mod_two_eq_zero_or_one _
  have h2 : (c2 ^^^ b2) &&& 1 = 0 ∨ (c2 ^^^ b2) &&& 1 = 1 := by
    rw [Nat.and_one_is_mod]; exact Nat.mod_two_eq_zero_or_one _
  unfold crc8_bit
  rcases h1 with h1 | h1 <;> rcases h2 with h2 | h2 <;>
    simp only [hmix, h1, h2, Nat.zero_xor, Nat.xor_zero, Nat.xor_self, ne_eq,
      one_ne_zero, not_false_iff, if_true, not_true, if_false]
  · exact shiftRight_xor c1 c2 1
  · rw [shiftRight_xor, Nat.xor_assoc]
  · rw [shiftRight_xor, Nat.xor_assoc, Nat.xor_comm (c2 >>> 1) 140, ← Nat.xor_assoc]
  · rw [shiftRight_xor, xor_mix, Nat.xor_self, Nat.xor_zero]

/-- The 8-bit inner loop is linear over xor. -/
theorem crc8_byteAux_linear (j : Nat) :
    ∀ c1 b1 c2 b2 : Nat,
      crc8_byteAux j (c1 ^^^ c2) (b1 ^^^ b2)
        = crc8_byteAux j c1 b1 ^^^ crc8_byteAux j c2 b2 := by
  induction j with
  | zero => intro c1 b1 c2 b2; rfl
  | succ j ih =>
    intro c1 b1 c2 b2
    simp only [crc8_byteAux]
    rw [crc8_bit_linear, shiftRight_xor]
    exact ih _ _ _ _

/-- Byte-level linearity of the CRC. -/
theorem crc8_byte_linear (c1 b1 c2 b2 : Nat) :
    crc8_byte (c1 ^^^ c2) (b1 ^^^ b2) = crc8_byte c1 b1 ^^^ crc8_byte c2 b2 :=
  crc8_byteAux_linear 8 c1 b1 c2 b2

/-- Xoring a byte into the message shifts the CRC state by an error term. -/
theorem crc8_byte_xor_right (c b e : Nat) :
    crc8_byte c (b ^^^ e) = crc8_byte c b ^^^ crc8_byte 0 e := by
  have h := crc8_byte_linear c b 0 e
  simpa using h

/-- Folding the CRC from a xored initial state splits into the fold from
each part, the error part running over a zero message of the same length. -/
theorem foldl_crc8_xor (t : List Nat) :
    ∀ a d : Nat,
      List.foldl crc8_byte (a ^^^ d) t
        = List.foldl crc8_byte a t
            ^^^ List.foldl crc8_byte d (List.replicate t.length 0) := by
  induction t with
  | nil => intro a d; rfl
  | cons x t ih =>
    intro a d
    simp only [List.foldl_cons, List.length_cons, List.replicate_succ]
    rw [← ih (crc8_byte a x) (crc8_byte d 0)]
    congr 1
    have h := crc8_byte_linear a x d 0
    simpa using h

/-- The CRC perturbation caused by xoring `e` into one message byte
followed by `n` further message bytes. -/
def crcDelta (e n : Nat) : Nat :=
  List.foldl crc8_byte (crc8_byte 0 e) (List.replicate n 0)

/-- Xoring `e` into the byte at position `k` of the message changes the
CRC by exactly `crcDelta e (remaining length)`. -/
theorem crc8_foldl_set (p : List Nat) :
    ∀ (k c e : Nat), k < p.length →
      List.foldl crc8_byte c (p.set k (p.getD k 0 ^^^ e))
        = List.foldl crc8_byte c p ^^^ crcDelta e (p.length - k - 1) := by
  induction p with
  | nil => intro k c e h; simp at h
  | cons x t ih =>
    intro k c e h
    cases k with
    | zero =>
      simp only [List.getD_cons_zero, List.set_cons_zero, List.foldl_cons,
        List.length_cons, Nat.succ_sub_one, Nat.zero_add]
      rw [crc8_byte_xor_right, foldl_crc8_xor]
      rfl
    | succ k =>
      simp only [List.getD_cons_succ, List.set_cons_succ, List.foldl_cons,
        List.length_cons, Nat.succ_sub_succ]
      exact ih k (crc8_byte c x) e (by simpa using h)

/-- No single-bit error in a message of at most 16 bytes leaves the CRC
unchanged: the perturbation of a one-bit error is never zero. -/
theorem crcDelta_single_bit_ne_zero :
    ∀ (n : Fin 16) (j : Fin 8), crcDelta (1 <<< (j : Nat)) (n : Nat) ≠ 0 := by
  decide

/-- Flipping bit `j` of byte `k` of a message of length at most 16 changes
its CRC-8. -/
theorem crc8_set_flip_ne (p : List Nat) (k j : Nat)
    (hk : k < p.length) (hlen : p.length ≤ 16) (hj : j < 8) :
    crc8_maxim (p.set k (p.getD k 0 ^^^ (1 <<< j))) ≠ crc8_maxim p := by
  unfold crc8_maxim
  rw [crc8_foldl_set p k 0 (1 <<< j) hk]
  intro hEq
  have hzero : crcDelta (1 <<< j) (p.length - k - 1) = 0 := by
    have h0 : List.foldl crc8_byte 0 p ^^^ crcDelta (1 <<< j) (p.length - k - 1)
        = List.foldl crc8_byte 0 p ^^^ 0 := by
      rw [Nat.xor_zero]; exact hEq
    exact Nat.xor_right_inj.mp h0
  exact crcDelta_single_bit_ne_zero ⟨p.length - k - 1, by omega⟩ ⟨j, hj⟩ hzero

/-! ## Case lemmas for the framing state machine -/

/-- At cursor 0 a non-sync byte is dropped with no state change. -/
theorem asmFeed_nosync (a : Assembler) (b : Nat) (h0 : a.idx = 0) (hb : b ≠ PKT_SYNC) :
    asmFeed a b = (a, none) := by
  simp [asmFeed, h0, hb]

/-- At cursor 0 the sync byte is stored at position 0, cursor becomes 1. -/
theorem asmFeed_sync (a : Assembler) (b : Nat) (h0 : a.idx = 0) (hb : b = PKT_SYNC) :
    asmFeed a b = ({ buf := a.buf.set 0 b, idx := 1 }, none) := by
  simp [asmFeed, h0, hb, store]

/-- Mid-frame, short of completion: store at cursor, increment. -/
theorem asmFeed_accum (a : Assembler) (b : Nat) (h0 : a.idx ≠ 0) (h18 : a.idx + 1 ≠ 18) :
    asmFeed a b = ({ buf := a.buf.set a.idx b, idx := a.idx + 1 }, none) := by
  simp [asmFeed, h0, store, PKT_LEN, h18]

/-- The 18th byte completes the frame: it is handed out, cursor reset. -/
theorem asmFeed_complete (a : Assembler) (b : Nat) (h17 : a.idx = 17) :
    asmFeed a b = ({ buf := a.buf.set 17 b, idx := 0 }, some (a.buf.set 17 b)) := by
  simp [asmFeed, h17, store, PKT_LEN]

/-- `feed` on a dropped noise byte: the whole state is unchanged. -/
theorem feed_nosync (s : RadarState) (b : Nat) (h0 : s.asm.idx = 0) (hb : b ≠ PKT_SYNC) :
    feed s b = (s, none) := by
  unfold feed
  rw [asmFeed_nosync s.asm b h0 hb]

/-- `feed` on the sync byte at cursor 0. -/
theorem feed_sync (s : RadarState) (b : Nat) (h0 : s.asm.idx = 0) (hb : b = PKT_SYNC) :
    feed s b = ({ s with asm := { buf := s.asm.buf.set 0 b, idx := 1 } }, none) := by
  unfold feed
  rw [asmFeed_sync s.asm b h0 hb]

/-- `feed` mid-frame short of completion. -/
theorem feed_accum (s : RadarState) (b : Nat) (h0 : s.asm.idx ≠ 0) (h18 : s.asm.idx + 1 ≠ 18) :
    feed s b
      = ({ s with asm := { buf := s.asm.buf.set s.asm.idx b, idx := s.asm.idx + 1 } }, none) := by
  unfold feed
  rw [asmFeed_accum s.asm b h0 h18]

/-- Validation outcome and state update on a completed frame. -/
def finishFrame (s : RadarState) (frame : List Nat) : RadarState × List Measurement :=
  match validate_and_decode frame with
  | some m =>
    ({ asm := { buf := frame, idx := 0 },
       lastX := m.x, lastY := m.y, lastZ := m.z, poseValid := 1 }, [m])
  | none =>
    ({ asm := { buf := frame, idx := 0 },
       lastX := s.lastX, lastY := s.lastY, lastZ := s.lastZ,
       poseValid := s.poseValid }, [])

theorem finishFrame_some (s : RadarState) (frame : List Nat) (m : Measurement)
    (h : validate_and_decode frame = some m) :
    finishFrame s frame
      = ({ asm := { buf := frame, idx := 0 },
           lastX := m.x, lastY := m.y, lastZ := m.z, poseValid := 1 }, [m]) := by
  unfold finishFrame
  rw [h]

theorem finishFrame_none (s : RadarState) (frame : List Nat)
    (h : validate_and_decode frame = none) :
    finishFrame s frame
      = ({ asm := { buf := frame, idx := 0 },
           lastX := s.lastX, lastY := s.lastY, lastZ := s.lastZ,
           poseValid := s.poseValid }, []) := by
  unfold finishFrame
  rw [h]

/-- `feed` on the completing 18th byte, phrased through `finishFrame`. -/
theorem feed_complete (s : RadarState) (b : Nat) (h17 : s.asm.idx = 17) :
    feed s b
      = ((finishFrame s (s.asm.buf.set 17 b)).1,
         (finishFrame s (s.asm.buf.set 17 b)).2.head?) := by
  unfold feed
  rw [asmFeed_complete s.asm b h17]
  unfold finishFrame
  cases h : validate_and_decode (s.asm.buf.set 17 b) <;> simp [h]

/-! ## Running whole byte sequences -/

/-- Overwrite successive positions of `base` starting at `i` with `bs`. -/
def overwriteFrom (base : List Nat) (i : Nat) : List Nat → List Nat
  | [] => base
  | b :: bs => overwriteFrom (base.set i b) (i + 1) bs

theorem set_take_succ (base : List Nat) :
    ∀ (i b : Nat), i < base.length →
      (base.set i b).take (i + 1) = base.take i ++ [b] := by
  induction base with
  | nil => intro i b h; simp at h
  | cons x t ih =>
    intro i b h
    cases i with
    | zero => simp
    | succ i =>
      simp only [List.set_cons_succ, List.take_succ_cons, List.cons_append]
      rw [ih i b (by simpa using h)]

theorem overwriteFrom_full (bs : List Nat) :
    ∀ (base : List Nat) (i : Nat), i + bs.length = base.length →
      overwriteFrom base i bs = base.take i ++ bs := by
  induction bs with
  | nil =>
    intro base i h
    simp only [overwriteFrom, List.append_nil]
    simp only [List.length_nil, Nat.add_zero] at h
    rw [show i = base.length from h, List.take_length]
  | cons b bs ih =>
    intro base i h
    simp only [overwriteFrom]
    rw [ih (base.set i b) (i + 1) (by simp only [List.length_set]; simp at h ⊢; omega)]
    rw [set_take_succ base i b (by simp at h ⊢; omega)]
    simp

/-- Feeding the remainder of a frame mid-accumulation runs deterministically
to frame completion and validation. -/
theorem feedAll_accum (bs : List Nat) :
    ∀ (s : RadarState), 0 < s.asm.idx → s.asm.idx < 18 →
      s.asm.idx + bs.length = 18 →
      feedAll s bs = finishFrame s (overwriteFrom s.asm.buf s.asm.idx bs) := by
  induction bs with
  | nil => intro s h0 hlt hlen; exact absurd hlen (by simp; omega)
  | cons b bs ih =>
    intro s h0 hlt hlen
    by_cases hlast : s.asm.idx = 17
    · have hbs : bs = [] := by
        have hl : bs.length = 0 := by simp at hlen; omega
        exact List.length_eq_zero.mp hl
      subst hbs
      simp only [feedAll]
      rw [feed_complete s b hlast]
      simp only [overwriteFrom, hlast]
      cases h : validate_and_decode (s.asm.buf.set 17 b) <;> simp [finishFrame, h]
    · have h18 : s.asm.idx + 1 ≠ 18 := by omega
      simp only [feedAll]
      rw [feed_accum s b (by omega) h18]
      rw [ih _ (by simp) (by simp; omega) (by simp at hlen ⊢; omega)]
      simp only [overwriteFrom]
      rfl

/-- Feeding a full 18-byte sequence whose first byte is the sync value,
starting from a scanning state (cursor 0): the sequence is accumulated in
full and then validated. -/
theorem feedAll_frame (bs : List Nat) (s : RadarState) (h0 : s.asm.idx = 0)
    (hlen : bs.length = 18) (hhead : bs.getD 0 0 = PKT_SYNC) :
    feedAll s bs = finishFrame s (overwriteFrom s.asm.buf 0 bs) := by
  cases bs with
  | nil => simp at hlen
  | cons b bs =>
    have hb : b = PKT_SYNC := by simpa using hhead
    subst hb
    simp only [feedAll]
    rw [feed_sync s _ h0 rfl]
    rw [feedAll_accum bs _ (by simp) (by simp) (by simp at hlen ⊢; omega)]
    simp only [overwriteFrom, h0]
    rfl

/-- Noise bytes (none equal to the sync value) fed while scanning are
dropped without any effect on the state or on later output. -/
theorem feedAll_noise_append (noise : List Nat) :
    ∀ (s : RadarState) (bs : List Nat), s.asm.idx = 0 →
      (∀ b ∈ noise, b ≠ PKT_SYNC) →
      feedAll s (noise ++ bs) = feedAll s bs := by
  induction noise with
  | nil => intro s bs h0 hn; rfl
  | cons x noise ih =>
    intro s bs h0 hn
    simp only [List.cons_append, feedAll]
    rw [feed_nosync s x h0 (hn x (by simp))]
    dsimp only
    simp only [List.append_eq]
    rw [ih s bs h0 (fun b hb => hn b (by simp [hb]))]
    rfl

/-- A value below `2^32` is recovered from its four little-endian bytes. -/
theorem le32_le32bytes (v : Nat) (hv : v < 2 ^ 32) :
    le32 (v % 256) (v / 256 % 256) (v / 65536 % 256) (v / 16777216 % 256) = v := by
  unfold le32
  omega

/-! ## Claim theorems -/

/-- C1: encoding any float32 quadruple (as 32-bit patterns) into the
18-byte wire format and feeding the bytes through the decoder from the
empty assembler state emits exactly one measurement, bit-for-bit equal to
the encoded quadruple. -/
theorem radar_roundtrip (x y z sd : Nat)
    (hx : x < 2 ^ 32) (hy : y < 2 ^ 32) (hz : z < 2 ^ 32) (hsd : sd < 2 ^ 32) :
    (feedAll initState (encode x y z sd)).2
      = [{ x := x, y := y, z := z, stdDev := sd,
           source := MeasurementSource.locationService }] := by
  have hlen : (encode x y z sd).length = 18 := by
    simp [encode, encodePayload, le32bytes]
  rw [feedAll_frame _ _ rfl hlen rfl]
  rw [overwriteFrom_full _ _ 0 (by simp [hlen, initState])]
  simp only [List.take_zero, List.nil_append]
  have hval : validate_and_decode (encode x y z sd)
      = some { x := le32 (x % 256) (x / 256 % 256) (x / 65536 % 256) (x / 16777216 % 256)
               y := le32 (y % 256) (y / 256 % 256) (y / 65536 % 256) (y / 16777216 % 256)
               z := le32 (z % 256) (z / 256 % 256) (z / 65536 % 256) (z / 16777216 % 256)
               stdDev := le32 (sd % 256) (sd / 256 % 256) (sd / 65536 % 256) (sd / 16777216 % 256)
               source := MeasurementSource.locationService } := by
    have hc : crc8_maxim (((encode x y z sd).drop 1).take 16)
        = (encode x y z sd).getD 17 0 := rfl
    unfold validate_and_decode
    rw [if_pos hc]
    rfl
  rw [finishFrame_some _ _ _ hval]
  rw [le32_le32bytes x hx, le32_le32bytes y hy, le32_le32bytes z hz, le32_le32bytes sd hsd]

/-- Witness for C1 at the spec's concrete scenario: x=1.0, y=2.0, z=3.0,
stdDev=1.0 as float32 bit patterns. -/
theorem radar_roundtrip_witness :
    (feedAll initState (encode 0x3F800000 0x40000000 0x40400000 0x3F800000)).2
      = [{ x := 0x3F800000, y := 0x40000000, z := 0x40400000, stdDev := 0x3F800000,
           source := MeasurementSource.locationService }] :=
  radar_roundtrip 0x3F800000 0x40000000 0x40400000 0x3F800000
    (by decide) (by decide) (by decide) (by decide)

/-- The CRC-8 algorithm exactly as the specification words it: per payload
byte, iterate the bit step `mix = (crc XOR byte) AND 1; crc >>= 1; if mix
then crc ^= 0x8C; byte >>= 1` eight times, starting from crc = 0. -/
def crc8_spec_step (st : Nat × Nat) : Nat × Nat :=
  let mix := (st.1 ^^^ st.2) &&& 1
  let crc := st.1 >>> 1
  let crc2 := if mix ≠ 0 then crc ^^^ 0x8C else crc
  (crc2, st.2 >>> 1)

/-- Spec-worded per-byte CRC step: eight iterations of `crc8_spec_step`. -/
def crc8_spec_byte (crc b : Nat) : Nat := (crc8_spec_step^[8] (crc, b)).1

/-- Spec-worded checksum over the payload bytes, initial value 0. -/
def crc8_spec (payload : List Nat) : Nat := payload.foldl crc8_spec_byte 0

theorem crc8_byteAux_iterate (j : Nat) :
    ∀ c b : Nat, crc8_byteAux j c b = (crc8_spec_step^[j] (c, b)).1 := by
  induction j with
  | zero => intro c b; rfl
  | succ j ih =>
    intro c b
    simp only [crc8_byteAux]
    rw [Function.iterate_succ_apply]
    exact ih (crc8_bit c b) (b >>> 1)

/-- C2: the code's checksum function computes exactly the MAXIM/Dallas
CRC-8 bit-level algorithm stated in the specification, on any message (in
particular on the 16 payload bytes). -/
theorem crc8_matches_spec (d : List Nat) : crc8_maxim d = crc8_spec d := by
  have h : crc8_byte = crc8_spec_byte :=
    funext fun c => funext fun b => crc8_byteAux_iterate 8 c b
  unfold crc8_maxim crc8_spec
  rw [h]

/-- C5: at cursor 0 a non-sync byte is silently discarded with no state
change and a sync byte is stored at position 0 with the cursor moving to
1; while accumulating (0 < cursor < 18) the byte is stored at the cursor
and the cursor incremented regardless of its value, after which the
completion rule (companion claim) applies if the cursor has reached 18. -/
theorem assembler_feed_behavior (a : Assembler) (b : Nat) :
    (a.idx = 0 → b ≠ PKT_SYNC → asmFeed a b = (a, none)) ∧
    (a.idx = 0 → b = PKT_SYNC →
      asmFeed a b = ({ buf := a.buf.set 0 b, idx := 1 }, none)) ∧
    (0 < a.idx → a.idx < 18 →
      asmFeed a b
        = (let a1 : Assembler := { buf := a.buf.set a.idx b, idx := a.idx + 1 }
           if a1.idx = PKT_LEN then ({ a1 with idx := 0 }, some a1.buf)
           else (a1, none))) :=
  ⟨fun h0 hb => asmFeed_nosync a b h0 hb,
   fun h0 hb => asmFeed_sync a b h0 hb,
   fun h0 _ => by
     unfold asmFeed
     rw [if_neg (by omega)]
     rfl⟩

/-- Witness for C5: a non-sync byte at cursor 0 is dropped. -/
theorem assembler_feed_behavior_witness :
    asmFeed { buf := List.replicate 18 0, idx := 0 } 7
      = ({ buf := List.replicate 18 0, idx := 0 }, none) :=
  (assembler_feed_behavior { buf := List.replicate 18 0, idx := 0 } 7).1 rfl (by decide)

/-- C7: on the byte that completes a frame (cursor 17, so the cursor
reaches 18) the candidate frame is handed out and the cursor is reset to 0
unconditionally, whatever the validation outcome. -/
theorem cursor_reset_on_full (s : RadarState) (b : Nat) (h17 : s.asm.idx = 17) :
    (asmFeed s.asm b).1.idx = 0 ∧
    (asmFeed s.asm b).2 = some (s.asm.buf.set 17 b) ∧
    (feed s b).1.asm.idx = 0 := by
  refine ⟨?_, ?_, ?_⟩
  · rw [asmFeed_complete s.asm b h17]
  · rw [asmFeed_complete s.asm b h17]
  · rw [feed_complete s b h17]
    unfold finishFrame
    cases h : validate_and_decode (s.asm.buf.set 17 b) <;> simp [h]

/-- Witness for C7 at a concrete full-cursor state. -/
theorem cursor_reset_on_full_witness :
    (asmFeed (Assembler.mk (List.replicate 18 0) 17) 9).1.idx = 0 ∧
    (asmFeed (Assembler.mk (List.replicate 18 0) 17) 9).2
      = some ((List.replicate 18 0).set 17 9) ∧
    (feed (RadarState.mk (Assembler.mk (List.replicate 18 0) 17) 0 0 0 0) 9).1.asm.idx
      = 0 :=
  cursor_reset_on_full (RadarState.mk (Assembler.mk (List.replicate 18 0) 17) 0 0 0 0) 9 rfl

/-- C3: a completed frame whose trailing byte differs from the CRC-8 of
bytes 1-16 emits nothing, leaves the cached pose and validity flag
untouched, and resets the cursor to 0 so scanning resumes. -/
theorem checksum_mismatch_discards (s : RadarState) (b : Nat) (h17 : s.asm.idx = 17)
    (hbad : crc8_maxim (((s.asm.buf.set 17 b).drop 1).take 16)
      ≠ (s.asm.buf.set 17 b).getD 17 0) :
    feed s b
      = ({ asm := { buf := s.asm.buf.set 17 b, idx := 0 },
           lastX := s.lastX, lastY := s.lastY, lastZ := s.lastZ,
           poseValid := s.poseValid }, none) := by
  have hnone : validate_and_decode (s.asm.buf.set 17 b) = none := by
    unfold validate_and_decode
    rw [if_neg hbad]
  rw [feed_complete s b h17, finishFrame_none s _ hnone]
  rfl

/-- Witness for C3: an all-zero frame with trailing byte forced to 1
(CRC of 16 zero bytes is 0) is rejected and the cache (5, 6, 7, flag 1)
survives. -/
theorem checksum_mismatch_discards_witness :
    feed (RadarState.mk (Assembler.mk (List.replicate 18 0) 17) 5 6 7 1) 1
      = ({ asm := { buf := (List.replicate 18 0).set 17 1, idx := 0 },
           lastX := 5, lastY := 6, lastZ := 7, poseValid := 1 }, none) :=
  checksum_mismatch_discards
    (RadarState.mk (Assembler.mk (List.replicate 18 0) 17) 5 6 7 1) 1 rfl (by decide)

/-- C4: a frame passing the checksum emits a measurement whose x, y, z,
stdDev are the little-endian 32-bit interpretations of frame bytes 1-4,
5-8, 9-12, 13-16; no range check is applied (the equation holds for every
byte pattern, NaN and infinity encodings included). -/
theorem decode_fields_le32 (s : RadarState) (b : Nat) (h17 : s.asm.idx = 17)
    (hok : crc8_maxim (((s.asm.buf.set 17 b).drop 1).take 16)
      = (s.asm.buf.set 17 b).getD 17 0) :
    (feed s b).2
      = some
        { x := le32 ((s.asm.buf.set 17 b).getD 1 0) ((s.asm.buf.set 17 b).getD 2 0)
                    ((s.asm.buf.set 17 b).getD 3 0) ((s.asm.buf.set 17 b).getD 4 0)
          y := le32 ((s.asm.buf.set 17 b).getD 5 0) ((s.asm.buf.set 17 b).getD 6 0)
                    ((s.asm.buf.set 17 b).getD 7 0) ((s.asm.buf.set 17 b).getD 8 0)
          z := le32 ((s.asm.buf.set 17 b).getD 9 0) ((s.asm.buf.set 17 b).getD 10 0)
                    ((s.asm.buf.set 17 b).getD 11 0) ((s.asm.buf.set 17 b).getD 12 0)
          stdDev := le32 ((s.asm.buf.set 17 b).getD 13 0) ((s.asm.buf.set 17 b).getD 14 0)
                    ((s.asm.buf.set 17 b).getD 15 0) ((s.asm.buf.set 17 b).getD 16 0)
          source := MeasurementSource.locationService } := by
  have hsome : validate_and_decode (s.asm.buf.set 17 b)
      = some
        { x := le32 ((s.asm.buf.set 17 b).getD 1 0) ((s.asm.buf.set 17 b).getD 2 0)
                    ((s.asm.buf.set 17 b).getD 3 0) ((s.asm.buf.set 17 b).getD 4 0)
          y := le32 ((s.asm.buf.set 17 b).getD 5 0) ((s.asm.buf.set 17 b).getD 6 0)
                    ((s.asm.buf.set 17 b).getD 7 0) ((s.asm.buf.set 17 b).getD 8 0)
          z := le32 ((s.asm.buf.set 17 b).getD 9 0) ((s.asm.buf.set 17 b).getD 10 0)
                    ((s.asm.buf.set 17 b).getD 11 0) ((s.asm.buf.set 17 b).getD 12 0)
          stdDev := le32 ((s.asm.buf.set 17 b).getD 13 0) ((s.asm.buf.set 17 b).getD 14 0)
                    ((s.asm.buf.set 17 b).getD 15 0) ((s.asm.buf.set 17 b).getD 16 0)
          source := MeasurementSource.locationService } := by
    unfold validate_and_decode
    rw [if_pos hok]
  rw [feed_complete s b h17, finishFrame_some s _ _ hsome]
  rfl

/-- Witness for C4: a frame whose x payload is the quiet-NaN pattern
`0x7FC00000` passes the checksum and is emitted unmodified. -/
theorem decode_fields_le32_witness :
    (feed (RadarState.mk
      (Assembler.mk ([0xA5, 0, 0, 192, 127] ++ List.replicate 13 0) 17) 0 0 0 0) 186).2
      = some { x := 0x7FC00000, y := 0, z := 0, stdDev := 0,
               source := MeasurementSource.locationService } :=
  decode_fields_le32
    (RadarState.mk (Assembler.mk ([0xA5, 0, 0, 192, 127] ++ List.replicate 13 0) 17) 0 0 0 0)
    186 rfl (by decide)

/-- A full frame fed from the empty state that validates emits exactly its
decoded measurement. -/
theorem feedAll_frame_some (fr : List Nat) (m : Measurement) (hl : fr.length = 18)
    (hh : fr.getD 0 0 = PKT_SYNC) (hv : validate_and_decode fr = some m) :
    (feedAll initState fr).2 = [m] := by
  rw [feedAll_frame fr initState rfl hl hh]
  rw [overwriteFrom_full fr _ 0 (by simp [hl, initState])]
  simp only [List.take_zero, List.nil_append]
  rw [finishFrame_some _ _ _ hv]

/-- A full frame fed from the empty state that fails validation emits
nothing. -/
theorem feedAll_frame_reject (fr : List Nat) (hl : fr.length = 18)
    (hh : fr.getD 0 0 = PKT_SYNC) (hv : validate_and_decode fr = none) :
    (feedAll initState fr).2 = [] := by
  rw [feedAll_frame fr initState rfl hl hh]
  rw [overwriteFrom_full fr _ 0 (by simp [hl, initState])]
  simp only [List.take_zero, List.nil_append]
  rw [finishFrame_none _ _ hv]

/-- C8: non-sync noise in front of a valid frame has no effect: the
prefixed stream emits exactly the same single measurement as the frame
alone. -/
theorem noise_prefix_harmless (noise bs : List Nat) (m : Measurement)
    (hn : ∀ b ∈ noise, b ≠ PKT_SYNC) (hlen : bs.length = 18)
    (hhead : bs.getD 0 0 = PKT_SYNC) (hm : validate_and_decode bs = some m) :
    (feedAll initState (noise ++ bs)).2 = [m] ∧ (feedAll initState bs).2 = [m] := by
  have hrun := feedAll_frame_some bs m hlen hhead hm
  refine ⟨?_, hrun⟩
  rw [feedAll_noise_append noise initState bs rfl hn]
  exact hrun

/-- Witness for C8: noise `[1, 2, 3]` before the all-zero-payload frame. -/
theorem noise_prefix_harmless_witness :
    (feedAll initState ([1, 2, 3] ++ encode 0 0 0 0)).2
      = [{ x := 0, y := 0, z := 0, stdDev := 0,
           source := MeasurementSource.locationService }] ∧
    (feedAll initState (encode 0 0 0 0)).2
      = [{ x := 0, y := 0, z := 0, stdDev := 0,
           source := MeasurementSource.locationService }] :=
  noise_prefix_harmless [1, 2, 3] (encode 0 0 0 0)
    { x := 0, y := 0, z := 0, stdDev := 0, source := MeasurementSource.locationService }
    (by decide) (by decide) (by decide) (by decide)

/-- Each `feed` step either emits nothing and keeps the pose cache and
flag, or emits a measurement, copies its fields into the cache and sets
the flag. -/
theorem feed_cache_cases (s : RadarState) (b : Nat) :
    ((feed s b).2 = none ∧ (feed s b).1.lastX = s.lastX ∧
     (feed s b).1.lastY = s.lastY ∧ (feed s b).1.lastZ = s.lastZ ∧
     (feed s b).1.poseValid = s.poseValid) ∨
    (∃ m : Measurement, (feed s b).2 = some m ∧ (feed s b).1.lastX = m.x ∧
     (feed s b).1.lastY = m.y ∧ (feed s b).1.lastZ = m.z ∧
     (feed s b).1.poseValid = 1) := by
  by_cases h0 : s.asm.idx = 0
  · by_cases hb : b = PKT_SYNC
    · rw [feed_sync s b h0 hb]
      exact Or.inl ⟨rfl, rfl, rfl, rfl, rfl⟩
    · rw [feed_nosync s b h0 hb]
      exact Or.inl ⟨rfl, rfl, rfl, rfl, rfl⟩
  · by_cases h17 : s.asm.idx = 17
    · rw [feed_complete s b h17]
      cases hv : validate_and_decode (s.asm.buf.set 17 b) with
      | none =>
        rw [finishFrame_none _ _ hv]
        exact Or.inl ⟨rfl, rfl, rfl, rfl, rfl⟩
      | some m =>
        rw [finishFrame_some _ _ _ hv]
        exact Or.inr ⟨m, rfl, rfl, rfl, rfl, rfl⟩
    · rw [feed_accum s b h0 (by omega)]
      exact Or.inl ⟨rfl, rfl, rfl, rfl, rfl⟩

/-- C9: under the invariant (cursor below 18, 18-byte buffer) each step
preserves the invariant, writes into the buffer only at the cursor
(hence within bounds 0..17), and touches no state beyond the in-flight
buffer and cursor except the pose cache and flag on successful
validation. -/
theorem state_safety_invariant :
    (initState.asm.idx < 18 ∧ initState.asm.buf.length = 18) ∧
    ∀ (s : RadarState) (b : Nat), s.asm.idx < 18 → s.asm.buf.length = 18 →
      ((feed s b).1.asm.idx < 18 ∧
       (feed s b).1.asm.buf.length = 18 ∧
       ((feed s b).1.asm.buf = s.asm.buf ∨
         (feed s b).1.asm.buf = s.asm.buf.set s.asm.idx b) ∧
       ((feed s b).2 = none →
         ((feed s b).1.lastX = s.lastX ∧ (feed s b).1.lastY = s.lastY ∧
          (feed s b).1.lastZ = s.lastZ ∧ (feed s b).1.poseValid = s.poseValid)) ∧
       (∀ m : Measurement, (feed s b).2 = some m →
         ((feed s b).1.lastX = m.x ∧ (feed s b).1.lastY = m.y ∧
          (feed s b).1.lastZ = m.z ∧ (feed s b).1.poseValid = 1))) := by
  refine ⟨⟨by norm_num [initState], by simp [initState]⟩, ?_⟩
  intro s b hidx hbuf
  have hcache := feed_cache_cases s b
  have hc4 : ((feed s b).2 = none →
      ((feed s b).1.lastX = s.lastX ∧ (feed s b).1.lastY = s.lastY ∧
       (feed s b).1.lastZ = s.lastZ ∧ (feed s b).1.poseValid = s.poseValid)) ∧
      (∀ m : Measurement, (feed s b).2 = some m →
      ((feed s b).1.lastX = m.x ∧ (feed s b).1.lastY = m.y ∧
       (feed s b).1.lastZ = m.z ∧ (feed s b).1.poseValid = 1)) := by
    rcases hcache with ⟨hn, h1, h2, h3, h4⟩ | ⟨m, hm, h1, h2, h3, h4⟩
    · refine ⟨fun _ => ⟨h1, h2, h3, h4⟩, fun m hm => ?_⟩
      rw [hn] at hm; cases hm
    · refine ⟨fun hn => ?_, fun m' hm' => ?_⟩
      · rw [hm] at hn; cases hn
      · rw [hm] at hm'
        cases hm'
        exact ⟨h1, h2, h3, h4⟩
  by_cases h0 : s.asm.idx = 0
  · by_cases hb : b = PKT_SYNC
    · rw [feed_sync s b h0 hb] at hc4 ⊢
      exact ⟨by norm_num, by simp [List.length_set, hbuf],
        Or.inr (by rw [h0]), hc4.1, hc4.2⟩
    · rw [feed_nosync s b h0 hb] at hc4 ⊢
      exact ⟨hidx, hbuf, Or.inl rfl, hc4.1, hc4.2⟩
  · by_cases h17 : s.asm.idx = 17
    · rw [feed_complete s b h17] at hc4 ⊢
      cases hv : validate_and_decode (s.asm.buf.set 17 b) with
      | none =>
        rw [finishFrame_none _ _ hv] at hc4 ⊢
        exact ⟨by norm_num, by simp [List.length_set, hbuf],
          Or.inr (by rw [h17]), hc4.1, hc4.2⟩
      | some m =>
        rw [finishFrame_some _ _ _ hv] at hc4 ⊢
        exact ⟨by norm_num, by simp [List.length_set, hbuf],
          Or.inr (by rw [h17]), hc4.1, hc4.2⟩
    · rw [feed_accum s b h0 (by omega)] at hc4 ⊢
      exact ⟨by simp; omega, by simp [List.length_set, hbuf],
        Or.inr rfl, hc4.1, hc4.2⟩

/-- Witness for C9 at the initial state. -/
theorem state_safety_invariant_witness :
    initState.asm.idx < 18 ∧ initState.asm.buf.length = 18 ∧
    (feed initState 0).1.asm.idx < 18 :=
  ⟨by decide, by decide,
   (state_safety_invariant.2 initState 0 (by decide) (by decide)).1⟩

/-- C10: the validity flag starts at 0, is set to 1 exactly when a frame
validates, is left unchanged by every non-emitting step, and once 1 stays
1 over any further input. -/
theorem poseValid_latching :
    initState.poseValid = 0 ∧
    (∀ (s : RadarState) (b : Nat) (m : Measurement),
       (feed s b).2 = some m → (feed s b).1.poseValid = 1) ∧
    (∀ (s : RadarState) (b : Nat),
       (feed s b).2 = none → (feed s b).1.poseValid = s.poseValid) ∧
    (∀ (s : RadarState) (bs : List Nat),
       s.poseValid = 1 → (feedAll s bs).1.poseValid = 1) := by
  have hone : ∀ (s : RadarState) (b : Nat),
      s.poseValid = 1 → (feed s b).1.poseValid = 1 := by
    intro s b h1
    rcases feed_cache_cases s b with ⟨_, _, _, _, h⟩ | ⟨m, _, _, _, _, h⟩
    · rw [h, h1]
    · exact h
  refine ⟨rfl, ?_, ?_, ?_⟩
  · intro s b m hm
    rcases feed_cache_cases s b with ⟨hn, _⟩ | ⟨m', hm', _, _, _, h⟩
    · rw [hn] at hm; cases hm
    · exact h
  · intro s b hn
    rcases feed_cache_cases s b with ⟨_, _, _, _, h⟩ | ⟨m, hm, _⟩
    · exact h
    · rw [hm] at hn; cases hn
  · intro s bs
    induction bs generalizing s with
    | nil => intro h1; exact h1
    | cons b bs ih =>
      intro h1
      have : (feedAll s (b :: bs)).1 = (feedAll (feed s b).1 bs).1 := rfl
      rw [this]
      exact ih (feed s b).1 (hone s b h1)

/-- Witness for C10: a state with the flag already set keeps it through
noise and a fresh sync byte. -/
theorem poseValid_latching_witness :
    (feedAll (RadarState.mk (Assembler.mk (List.replicate 18 0) 0) 0 0 0 1)
      [1, 165, 2]).1.poseValid = 1 :=
  poseValid_latching.2.2.2
    (RadarState.mk (Assembler.mk (List.replicate 18 0) 0) 0 0 0 1) [1, 165, 2] rfl

/-- The trailing byte (index 17) of a framed 16-byte payload. -/
theorem frame_getD17 (l : List Nat) (c : Nat) (hl : l.length = 16) :
    (PKT_SYNC :: (l ++ [c])).getD 17 0 = c := by
  have hsplit : (PKT_SYNC :: (l ++ [c])) = (PKT_SYNC :: l) ++ [c] := by simp
  rw [hsplit, List.getD_append_right _ _ _ _ (by simp [hl])]
  simp [hl]

/-- The payload slice (drop 1, take 16) of a framed 16-byte payload. -/
theorem frame_payload (l : List Nat) (c : Nat) (hl : l.length = 16) :
    ((PKT_SYNC :: (l ++ [c])).drop 1).take 16 = l := by
  show (l ++ [c]).take 16 = l
  exact List.take_left' hl

/-- A framed 16-byte payload whose checksum does not match its trailing
byte fails validation. -/
theorem validate_structured_none (l : List Nat) (c : Nat) (hl : l.length = 16)
    (hne : crc8_maxim l ≠ c) :
    validate_and_decode (PKT_SYNC :: (l ++ [c])) = none := by
  unfold validate_and_decode
  rw [frame_payload l c hl, frame_getD17 l c hl]
  exact if_neg hne

/-- C6: flipping any single bit of any of bytes 1-17 of an otherwise valid
frame (sync byte, 16 payload bytes, matching CRC-8 trailing byte) makes the
checksum comparison fail, so the frame emits no measurement. -/
theorem single_bit_flip_rejected (p : List Nat) (ck : Nat) (hp : p.length = 16)
    (hck : crc8_maxim p = ck) (i j : Nat) (hi1 : 1 ≤ i) (hi2 : i ≤ 17) (hj : j < 8) :
    validate_and_decode
        ((PKT_SYNC :: (p ++ [ck])).set i ((PKT_SYNC :: (p ++ [ck])).getD i 0 ^^^ (1 <<< j)))
      = none ∧
    (feedAll initState
        ((PKT_SYNC :: (p ++ [ck])).set i ((PKT_SYNC :: (p ++ [ck])).getD i 0 ^^^ (1 <<< j)))).2
      = [] := by
  obtain ⟨k, rfl⟩ : ∃ k, i = k + 1 := ⟨i - 1, by omega⟩
  rw [List.set_cons_succ, List.getD_cons_succ]
  have hepos : 0 < 1 <<< j := by
    rw [Nat.shiftLeft_eq, Nat.one_mul]
    exact pow_pos (by norm_num) j
  by_cases hk : k < 16
  · have hget : (p ++ [ck]).getD k 0 = p.getD k 0 :=
      List.getD_append _ _ _ _ (by omega)
    have hset : (p ++ [ck]).set k (p.getD k 0 ^^^ (1 <<< j))
        = p.set k (p.getD k 0 ^^^ (1 <<< j)) ++ [ck] := by
      rw [List.set_append, if_pos (by omega)]
    rw [hget, hset]
    have h16 : (p.set k (p.getD k 0 ^^^ (1 <<< j))).length = 16 := by
      simp [List.length_set, hp]
    have hne : crc8_maxim (p.set k (p.getD k 0 ^^^ (1 <<< j))) ≠ ck := by
      rw [← hck]
      exact crc8_set_flip_ne p k j (by omega) (by omega) hj
    have hvd := validate_structured_none _ ck h16 hne
    exact ⟨hvd, feedAll_frame_reject _ (by simp [hp]) rfl hvd⟩
  · have hk16 : k = 16 := by omega
    subst hk16
    have hget : (p ++ [ck]).getD 16 0 = ck := by
      rw [List.getD_append_right _ _ _ _ (by omega)]
      simp [hp]
    have hset : (p ++ [ck]).set 16 (ck ^^^ (1 <<< j)) = p ++ [ck ^^^ (1 <<< j)] := by
      rw [List.set_append, if_neg (by omega)]
      simp [hp]
    rw [hget, hset]
    have hne : crc8_maxim p ≠ ck ^^^ (1 <<< j) := by
      rw [hck]
      intro hEq
      have h0 : ck ^^^ 0 = ck ^^^ (1 <<< j) := by
        rw [Nat.xor_zero]
        exact hEq
      have hz : (0 : Nat) = 1 <<< j := Nat.xor_right_inj.mp h0
      rw [← hz] at hepos
      exact Nat.lt_irrefl 0 hepos
    have hvd := validate_structured_none p (ck ^^^ (1 <<< j)) hp hne
    exact ⟨hvd, feedAll_frame_reject _ (by simp [hp]) rfl hvd⟩

/-- Witness for C6: flipping bit 0 of byte 1 of the valid all-zero frame. -/
theorem single_bit_flip_rejected_witness :
    validate_and_decode
        ((PKT_SYNC :: (List.replicate 16 0 ++ [0])).set 1
          ((PKT_SYNC :: (List.replicate 16 0 ++ [0])).getD 1 0 ^^^ (1 <<< 0)))
      = none ∧
    (feedAll initState
        ((PKT_SYNC :: (List.replicate 16 0 ++ [0])).set 1
          ((PKT_SYNC :: (List.replicate 16 0 ++ [0])).getD 1 0 ^^^ (1 <<< 0)))).2
      = [] :=
  single_bit_flip_rejected (List.replicate 16 0) 0 (by decide) (by decide) 1 0
    (by decide) (by decide) (by decide)
